import Mathlib

/-!
Shallow embedding of `src/demo.tsx` (editable data-grid demo).

The embedded parts are:
  * the record type `DataType` (demo.tsx lines 117-124), with JS runtime
    semantics: `key` is `string | number` (`React.Key`), and the remaining
    fields may be absent from a runtime object (the add handler builds a
    record holding only `key` and `name`), so they are `Option`-valued;
  * the row-store handlers `handleDelete` (150-153), `handleAdd` (187-194)
    and `handleSave` (196-205), with faithful ECMAScript semantics for
    `findIndex` (returns -1 on no match), indexing (out-of-range and -1
    give `undefined`) and `splice(start, 1, item)` (a negative `start`
    counts from the end, clamped at 0);
  * the object-spread merge `\x7b...item, ...row\x7d` (own properties of
    `row` win; spreading `undefined` contributes nothing);
  * the `EditableCell` commit path `save` (74-83) together with
    `toggleEdit` (69-72) and the single antd `required` validation rule
    (92-97), modelled as the ordered list of effects the handler performs;
  * the initial application state (129-148): two records with string keys
    "0" and "1", and the key counter starting at 2.
-/

/-- A JavaScript primitive value as used by the demo's records: the `key`
field has TypeScript type `React.Key = string | number`, and the other
record fields hold strings, numbers or booleans.  JS strict equality `===`
on these values is constructor-and-value equality (a string is never `===`
a number). -/
inductive JSValue where
  | str (s : String)
  | num (n : Int)
  | bool (b : Bool)
deriving DecidableEq, Repr

/-- The record type `DataType` of demo.tsx (lines 117-124), embedded with
JS runtime semantics: every record object constructed by the program has a
`key` and a `name`, but the add handler (lines 187-191) builds an object
with only `key` and `name`, so all non-key fields are modelled as
`Option` (`none` = property absent from the object).  `name` is kept
optional for uniformity of the spread merge. -/
structure DataType where
  key : JSValue
  name : Option JSValue
  price : Option JSValue
  quantity : Option JSValue
  discount : Option JSValue
  assignee : Option JSValue
deriving DecidableEq, Repr

/-- A record object is "full" when every field of the `DataType` contract
is present (demo.tsx lines 117-124 require all six fields). -/
def DataType.isFull (r : DataType) : Bool :=
  r.name.isSome && r.price.isSome && r.quantity.isSome &&
    r.discount.isSome && r.assignee.isSome

/-- Own-property-wins combination used by the object spread
`\x7b...item, ...row\x7d`: the result has `row`'s property when `row` has one,
otherwise `item`'s. -/
def orProp : Option JSValue → Option JSValue → Option JSValue
  | some v, _ => some v
  | none, old => old

/-- `\x7b...item, ...row\x7d` from demo.tsx lines 200-203, where `item` may be
`undefined` (it is `newData[index]` with `index = -1` when `findIndex`
found nothing): spreading `undefined` contributes no properties, so the
result is then just a copy of `row`.  Every record object reaching this
merge has its `key` property present, so the merged `key` is `row.key`. -/
def spreadMerge (item : Option DataType) (row : DataType) : DataType :=
  match item with
  | none => row
  | some it =>
      { key := row.key
        name := orProp row.name it.name
        price := orProp row.price it.price
        quantity := orProp row.quantity it.quantity
        discount := orProp row.discount it.discount
        assignee := orProp row.assignee it.assignee }

/-- First index at which `p` holds, as an `Option Nat` (helper for the JS
`findIndex` embedding). -/
def findIdxO (p : α → Bool) : List α → Option Nat
  | [] => none
  | x :: xs => if p x then some 0 else (findIdxO p xs).map (· + 1)

/-- `Array.prototype.findIndex`: index of the first match, `-1` when no
element matches (demo.tsx line 198). -/
def jsFindIndex (p : α → Bool) (xs : List α) : Int :=
  match findIdxO p xs with
  | some i => (i : Int)
  | none => -1

/-- JS array indexing `xs[i]` as used on demo.tsx line 199: yields
`undefined` (here `none`) for `-1` or any out-of-range index. -/
def jsIndex (xs : List α) (i : Int) : Option α :=
  if i < 0 then none else xs.get? i.toNat

/-- `Array.prototype.splice(start, 1, item)` restricted to the call shape
of demo.tsx line 200: per ECMAScript, a negative `start` is clamped to
`max (length + start) 0`, a too-large one to `length`; one element at the
resulting position is deleted (none when the position is past the end) and
`item` is inserted there. -/
def jsSplice1 (xs : List α) (start : Int) (item : α) : List α :=
  let len : Int := xs.length
  let s : Int := if start < 0 then max (len + start) 0 else min start len
  xs.take s.toNat ++ item :: xs.drop (s.toNat + 1)

/-- `handleDelete` (demo.tsx lines 150-153): keep exactly the records whose
`key` is not strictly equal (`!==`) to the argument. -/
def handleDelete (dataSource : List DataType) (key : JSValue) : List DataType :=
  dataSource.filter (fun item => decide (item.key ≠ key))

/-- `handleAdd` (demo.tsx lines 187-194): builds
`\x7bkey: count, name: 'Section 10.7 (2)'\x7d` — note the key is the *number*
`count` and the object has no `price`, `quantity`, `discount` or
`assignee` — appends it, and increments the counter.  The result pair is
(new dataSource, new count). -/
def handleAdd (dataSource : List DataType) (count : Int) :
    List DataType × Int :=
  let newData : DataType :=
    { key := JSValue.num count
      name := some (JSValue.str "Section 10.7 (2)")
      price := none
      quantity := none
      discount := none
      assignee := none }
  (dataSource ++ [newData], count + 1)

/-- `handleSave` (demo.tsx lines 196-205): copy the sequence, find the
index of the record whose key is `===` the incoming row's key (`-1` when
absent), read `newData[index]` (which is `undefined` when `index = -1`),
and `splice(index, 1, \x7b...item, ...row\x7d)` on the copy. -/
def handleSave (dataSource : List DataType) (row : DataType) : List DataType :=
  let newData := dataSource
  let index := jsFindIndex (fun item => decide (row.key = item.key)) newData
  let item := jsIndex newData index
  jsSplice1 newData index (spreadMerge item row)

/-- The two initial records of `dataSource` (demo.tsx lines 129-146).
Their keys are the *strings* `'0'` and `'1'`. -/
def record0 : DataType :=
  { key := JSValue.str "0"
    name := some (JSValue.str "Instrument 88B")
    price := some (JSValue.num 100)
    discount := some (JSValue.num 0)
    quantity := some (JSValue.num 1)
    assignee := some (JSValue.bool true) }

/-- Second initial record (demo.tsx lines 138-145). -/
def record1 : DataType :=
  { key := JSValue.str "1"
    name := some (JSValue.str "Critical Stage Inspections")
    price := some (JSValue.num 100)
    quantity := some (JSValue.num 3)
    discount := some (JSValue.num 0)
    assignee := some (JSValue.bool false) }

/-- Initial row sequence (demo.tsx lines 129-146). -/
def initialDataSource : List DataType := [record0, record1]

/-- Initial key counter (demo.tsx line 148). -/
def initialCount : Int := 2

/-- A row whose key `'9'` matches no record of `initialDataSource`, used
to exercise the not-found path of `handleSave`. -/
def row9 : DataType :=
  { key := JSValue.str "9"
    name := some (JSValue.str "X")
    price := some (JSValue.num 7)
    quantity := some (JSValue.num 7)
    discount := some (JSValue.num 7)
    assignee := some (JSValue.bool true) }

/-- The row produced by committing quantity 5 on the record with key `'0'`:
`\x7b...record0, quantity: 5\x7d`. -/
def rowQuantity5 : DataType :=
  { record0 with quantity := some (JSValue.num 5) }

/-- A record whose key is already the number 2: feeding it to `add` with
counter 2 duplicates a key. -/
def dupRecord : DataType :=
  { key := JSValue.num 2
    name := none
    price := none
    quantity := none
    discount := none
    assignee := none }

/-! ### The EditableCell commit path -/

/-- A column's `dataIndex` (demo.tsx lines 155-185): which record field the
cell reads and writes.  The five configured columns use `name`, `price`,
`discount`, `quantity` and `assignee`; no column addresses `key`. -/
inductive DataIndex where
  | name
  | price
  | quantity
  | discount
  | assignee
deriving DecidableEq, Repr

/-- `record[dataIndex]` (demo.tsx line 71). -/
def getField (r : DataType) : DataIndex → Option JSValue
  | DataIndex.name => r.name
  | DataIndex.price => r.price
  | DataIndex.quantity => r.quantity
  | DataIndex.discount => r.discount
  | DataIndex.assignee => r.assignee

/-- `\x7b...record, ...values\x7d` (demo.tsx line 79) where `values` is the
single-field object `\x7b[dataIndex]: v\x7d` returned by `validateFields`: a
copy of the full record with the one validated field overridden. -/
def setField (r : DataType) (f : DataIndex) (v : JSValue) : DataType :=
  match f with
  | DataIndex.name => { r with name := some v }
  | DataIndex.price => { r with price := some v }
  | DataIndex.quantity => { r with quantity := some v }
  | DataIndex.discount => { r with discount := some v }
  | DataIndex.assignee => { r with assignee := some v }

/-- The antd `required` rule of the editing cell (demo.tsx lines 92-97):
validation fails exactly when the field's value is missing or the empty
string.  `validateFields` resolves with the value on success and rejects
(throws) on failure. -/
def validateFields (fieldValue : Option JSValue) : Except Unit JSValue :=
  match fieldValue with
  | none => Except.error ()
  | some (JSValue.str s) =>
      if s = "" then Except.error () else Except.ok (JSValue.str s)
  | some v => Except.ok v

/-- One observable effect of the `EditableCell` commit handler, in the
order the handler performs them: flipping the `editing` flag
(`setEditing`, demo.tsx line 70), re-seeding the row form's field
(`form.setFieldsValue`, line 71), calling back into the row store
(`handleSave`, line 79), or logging a caught validation error
(`console.log`, line 81). -/
inductive CellEvent where
  | setEditing (b : Bool)
  | setFieldsValue (f : DataIndex) (v : Option JSValue)
  | storeUpdate (r : DataType)
  | consoleLog
deriving DecidableEq, Repr

/-- `EditableCell.save` (demo.tsx lines 74-83), as the ordered list of
effects it performs.  On successful validation it runs `toggleEdit()`
first — `setEditing (!editing)` then `form.setFieldsValue` — and only then
`handleSave(\x7b...record, ...values\x7d)`.  A validation rejection is caught by
the surrounding `try`/`catch` and only logged, so the handler never
throws; the failure path performs no other effect. -/
def save (editing : Bool) (record : DataType) (dataIndex : DataIndex)
    (fieldValue : Option JSValue) : List CellEvent :=
  match validateFields fieldValue with
  | Except.ok v =>
      [CellEvent.setEditing (!editing),
       CellEvent.setFieldsValue dataIndex (getField record dataIndex),
       CellEvent.storeUpdate (setField record dataIndex v)]
  | Except.error _ => [CellEvent.consoleLog]

/-- The state visible to one editable cell and the row store: the cell's
`editing` flag (demo.tsx line 59), the row form's value for the cell's
field, and the shared `dataSource` sequence. -/
structure CellTableState where
  editing : Bool
  formField : Option JSValue
  dataSource : List DataType
deriving DecidableEq, Repr

/-- How each commit effect acts on the visible state: `storeUpdate` runs
the row store's `handleSave`; `consoleLog` changes nothing. -/
def applyEvent (st : CellTableState) : CellEvent → CellTableState
  | CellEvent.setEditing b => { st with editing := b }
  | CellEvent.setFieldsValue _ v => { st with formField := v }
  | CellEvent.storeUpdate r => { st with dataSource := handleSave st.dataSource r }
  | CellEvent.consoleLog => st

/-- Running a commit's effect list over the visible state. -/
def applyEvents (es : List CellEvent) (st : CellTableState) : CellTableState :=
  es.foldl applyEvent st

/-- Whether a commit effect is the call into the row store. -/
def isStoreUpdate : CellEvent → Bool
  | CellEvent.storeUpdate _ => true
  | _ => false

/-- Whether a commit effect is a change of the cell's `editing` flag. -/
def isSetEditing : CellEvent → Bool
  | CellEvent.setEditing _ => true
  | _ => false

/-! ### Helper lemmas about the JS array primitives -/

theorem set_get_self {l : List α} {n : Nat} {a : α} (h : l[n]? = some a) :
    l.set n a = l := by
  induction l generalizing n with
  | nil => rfl
  | cons x xs ih =>
    cases n with
    | zero => simp at h; simp [List.set, h]
    | succ m => simp at h; simp [List.set, ih h]

theorem take_cons_drop_eq_set (xs : List α) (i : Nat) (x : α)
    (h : i < xs.length) :
    xs.take i ++ x :: xs.drop (i + 1) = xs.set i x := by
  induction xs generalizing i with
  | nil => simp at h
  | cons y ys ih =>
    cases i with
    | zero => simp [List.set]
    | succ m =>
      simp only [List.take, List.drop, List.set, List.cons_append]
      rw [ih m (by simpa using h)]

theorem findIdxO_lt_length {p : α → Bool} {s : List α} {i : Nat}
    (h : findIdxO p s = some i) : i < s.length := by
  induction s generalizing i with
  | nil => simp [findIdxO] at h
  | cons x xs ih =>
    by_cases hx : p x
    · simp [findIdxO, hx] at h
      simp only [List.length_cons]
      omega
    · simp [findIdxO, hx] at h
      obtain ⟨j, hj, rfl⟩ := h
      have := ih hj
      simp only [List.length_cons]
      omega

theorem findIdxO_get {p : α → Bool} {s : List α} {i : Nat}
    (h : findIdxO p s = some i) :
    ∃ x, s[i]? = some x ∧ p x = true := by
  induction s generalizing i with
  | nil => simp [findIdxO] at h
  | cons x xs ih =>
    by_cases hx : p x
    · simp [findIdxO, hx] at h
      subst h
      exact ⟨x, by simp, hx⟩
    · simp [findIdxO, hx] at h
      obtain ⟨j, hj, rfl⟩ := h
      simpa using ih hj

theorem findIdxO_eq_none_iff {p : α → Bool} {s : List α} :
    findIdxO p s = none ↔ ∀ x ∈ s, p x = false := by
  induction s with
  | nil => simp [findIdxO]
  | cons x xs ih =>
    by_cases hx : p x
    · simp [findIdxO, hx]
    · have hx' : p x = false := by simpa using hx
      rw [findIdxO, if_neg (by simp [hx])]
      simp [ih, hx']

theorem findIdxO_intro {p : α → Bool} {s : List α} {i : Nat} {x : α}
    (hx : s[i]? = some x) (hp : p x = true)
    (hfirst : ∀ j y, j < i → s[j]? = some y → p y = false) :
    findIdxO p s = some i := by
  induction s generalizing i with
  | nil => simp at hx
  | cons a as ih =>
    cases i with
    | zero =>
      simp at hx
      subst hx
      simp [findIdxO, hp]
    | succ m =>
      have ha : p a = false := hfirst 0 a (Nat.succ_pos m) (by simp)
      simp at hx
      have hrec : findIdxO p as = some m :=
        ih hx (fun j y hj hy => hfirst (j + 1) y (by omega) (by simpa using hy))
      simp [findIdxO, ha, hrec]

theorem findIdxO_append_singleton {p : α → Bool} {a : List α} {y : α}
    (h : ∀ x ∈ a, p x = false) (hy : p y = true) :
    findIdxO p (a ++ [y]) = some a.length := by
  induction a with
  | nil => simp [findIdxO, hy]
  | cons x xs ih =>
    have hx : p x = false := h x (List.mem_cons_self x xs)
    have hrec := ih (fun z hz => h z (List.mem_cons_of_mem x hz))
    simp [findIdxO, hx, hrec]

theorem findIdxO_set {p : α → Bool} {s : List α} {i : Nat} {y : α}
    (h : findIdxO p s = some i) (hy : p y = true) :
    findIdxO p (s.set i y) = some i := by
  induction s generalizing i with
  | nil => simp [findIdxO] at h
  | cons x xs ih =>
    by_cases hx : p x
    · simp [findIdxO, hx] at h
      subst h
      simp [List.set, findIdxO, hy]
    · simp [findIdxO, hx] at h
      obtain ⟨j, hj, rfl⟩ := h
      simp [List.set, findIdxO, hx, ih hj]

theorem update_found_char {s : List DataType} {row : DataType} {i : Nat}
    (h : findIdxO (fun item => decide (row.key = item.key)) s = some i) :
    handleSave s row = s.set i (spreadMerge s[i]? row) := by
  have hlen : i < s.length := findIdxO_lt_length h
  have h0 : ¬ ((i : Int) < 0) := by omega
  have hmin : min (i : Int) (s.length : Int) = (i : Int) :=
    min_eq_left (by exact_mod_cast hlen.le)
  simp only [handleSave, jsFindIndex, jsIndex, jsSplice1, h, if_neg h0,
    hmin, Int.toNat_natCast, List.get?_eq_getElem?]
  exact take_cons_drop_eq_set s i _ hlen

theorem update_none_char {s : List DataType} {row : DataType}
    (h : findIdxO (fun item => decide (row.key = item.key)) s = none) :
    handleSave s row = s.dropLast ++ [row] := by
  cases s with
  | nil => rfl
  | cons x xs =>
    have hneg : ((-1 : Int) < 0) := by omega
    have hmax : max (((x :: xs).length : Int) + -1) 0 =
        ((x :: xs).length : Int) + -1 := by
      apply max_eq_left
      simp only [List.length_cons]
      omega
    have ht : ((((x :: xs).length : Int)) + -1).toNat = xs.length := by
      simp only [List.length_cons]
      omega
    simp only [handleSave, jsFindIndex, jsIndex, jsSplice1, h, if_pos hneg,
      hmax, ht, spreadMerge]
    have hdrop : (x :: xs).drop (xs.length + 1) = [] := by
      have hl : (x :: xs).length = xs.length + 1 := by simp
      rw [← hl, List.drop_length]
    have htake : (x :: xs).take xs.length = (x :: xs).dropLast := by
      rw [List.dropLast_eq_take]
      simp
    rw [hdrop, htake]

theorem spreadMerge_full (item : Option DataType) (row : DataType)
    (h : row.isFull = true) : spreadMerge item row = row := by
  cases item with
  | none => rfl
  | some it =>
    cases row with
    | mk k n p q d a =>
      simp only [DataType.isFull, Bool.and_eq_true, Option.isSome_iff_exists] at h
      obtain ⟨⟨⟨⟨⟨n', hn⟩, p', hp⟩, q', hq⟩, d', hd⟩, a', ha⟩ := h
      subst hn hp hq hd ha
      simp [spreadMerge, orProp]

/-! ### Claim theorems -/

/-- C1 (code evaluation at the failing input): the claim says `update`
with a key matching no record is a no-op.  The code disagrees: with
`row9` (key `'9'`, absent from `initialDataSource`), `findIndex` returns
`-1`, `newData[-1]` is `undefined`, and `splice(-1, 1, row)` deletes the
*last* record and inserts the row, so `handleSave` replaces `record1`
with `row9` instead of returning the sequence unchanged. -/
theorem update_missing_key_replaces_last :
    (initialDataSource.map DataType.key).contains row9.key = false ∧
    handleSave initialDataSource row9 = [record0, row9] ∧
    handleSave initialDataSource row9 ≠ initialDataSource := by decide

/-- C2 (counterexample): the key of the record appended from the initial
state is the *number* `2` (`key: count` with `count : number`), not the
string `"2"` claimed; the result's keys are `['0', '1', 2]` and no record
has key `"2"`. -/
theorem add_appends_numeric_key_not_string :
    ((handleAdd initialDataSource initialCount).1.map DataType.key) =
      [JSValue.str "0", JSValue.str "1", JSValue.num 2] ∧
    (JSValue.num 2 : JSValue) ≠ JSValue.str "2" ∧
    ((handleAdd initialDataSource initialCount).1.map DataType.key).contains
      (JSValue.str "2") = false := by decide

/-- C2 (amended): from the initial sequence (`key:'0'`, `key:'1'`) and
counter 2, `add` appends a record with the *numeric* key `2` at the end,
the sequence length becomes 3, and the counter becomes 3. -/
theorem add_scenarioA_appends_key2_length3 :
    (handleAdd initialDataSource initialCount).1.length = 3 ∧
    (handleAdd initialDataSource initialCount).1.take 2 = initialDataSource ∧
    ((handleAdd initialDataSource initialCount).1.map DataType.key) =
      [JSValue.str "0", JSValue.str "1", JSValue.num 2] ∧
    (handleAdd initialDataSource initialCount).2 = 3 := by decide

/-- C3 (code evaluation at the failing input): the record appended by
`handleAdd` is not a full `Record`: it carries only `key` and `name`, and
`price`, `quantity`, `discount` and `assignee` are absent (the handler
also accepts no caller-supplied template — the name is hard-coded).  The
two initial records are full; the appended one is not. -/
theorem add_record_missing_contract_fields :
    (handleAdd initialDataSource initialCount).1 =
      [record0, record1,
        { key := JSValue.num 2
          name := some (JSValue.str "Section 10.7 (2)")
          price := none
          quantity := none
          discount := none
          assignee := none }] ∧
    (handleAdd initialDataSource initialCount).1.map DataType.isFull =
      [true, true, false] := by decide

/-- C4: a commit on a cell in `EDIT` state whose required field value is
empty performs only the caught-and-logged path: the effect list is just
`consoleLog`, no `storeUpdate` effect occurs, the visible state (editing
flag, form field, row sequence) is unchanged, and the cell stays in
`EDIT`. -/
theorem commit_validation_failure_is_inert (record : DataType)
    (dataIndex : DataIndex) (fieldValue : Option JSValue)
    (st : CellTableState)
    (hempty : fieldValue = none ∨ fieldValue = some (JSValue.str "")) :
    save true record dataIndex fieldValue = [CellEvent.consoleLog] ∧
    (∀ r, CellEvent.storeUpdate r ∉ save true record dataIndex fieldValue) ∧
    applyEvents (save true record dataIndex fieldValue) st = st ∧
    (st.editing = true →
      (applyEvents (save true record dataIndex fieldValue) st).editing = true) := by
  have hsave : save true record dataIndex fieldValue = [CellEvent.consoleLog] := by
    rcases hempty with h | h <;> subst h <;> rfl
  refine ⟨hsave, ?_, ?_, ?_⟩
  · intro r hr
    rw [hsave] at hr
    simp at hr
  · rw [hsave]
    rfl
  · intro h
    rw [hsave]
    exact h

/-- C4 witness at a concrete input: committing an empty (`undefined`)
quantity on `record0` from the initial sequence only logs and leaves the
state unchanged. -/
theorem commit_validation_failure_is_inert_witness :
    save true record0 DataIndex.quantity none = [CellEvent.consoleLog] ∧
    applyEvents (save true record0 DataIndex.quantity none)
      ⟨true, none, initialDataSource⟩ = ⟨true, none, initialDataSource⟩ :=
  ⟨(commit_validation_failure_is_inert record0 DataIndex.quantity none
      ⟨true, none, initialDataSource⟩ (Or.inl rfl)).1,
   (commit_validation_failure_is_inert record0 DataIndex.quantity none
      ⟨true, none, initialDataSource⟩ (Or.inl rfl)).2.2.1⟩

/-- C6 (counterexample): the claim says the store update happens before
the transition to `VIEW`.  In the code `save` calls `toggleEdit()` first
and `handleSave` after: on the successful commit of quantity 5 on
`record0`, the first effect (index 0) is already `setEditing false` — the
only occurrence of a `setEditing` effect — while the `storeUpdate` effect
occurs later, at index 2. -/
theorem commit_success_toggles_before_store_update :
    (save true record0 DataIndex.quantity (some (JSValue.num 5))).head? =
      some (CellEvent.setEditing false) ∧
    findIdxO isSetEditing
      (save true record0 DataIndex.quantity (some (JSValue.num 5))) = some 0 ∧
    findIdxO isStoreUpdate
      (save true record0 DataIndex.quantity (some (JSValue.num 5))) = some 2 := by
  decide

/-- C6 (amended): on a commit that passes validation, the cell first
transitions to `VIEW` (and re-seeds the form field), and then invokes the
row store update with the merge of the validated field value into a copy
of the full record — the transition precedes the store update. -/
theorem commit_success_effect_order (record : DataType) (dataIndex : DataIndex)
    (fieldValue : Option JSValue) (v : JSValue)
    (hv : validateFields fieldValue = Except.ok v) :
    save true record dataIndex fieldValue =
      [CellEvent.setEditing false,
       CellEvent.setFieldsValue dataIndex (getField record dataIndex),
       CellEvent.storeUpdate (setField record dataIndex v)] := by
  simp [save, hv]

/-- C6 witness: committing quantity 5 on `record0` produces exactly the
transition, the re-seed, and the store update with `rowQuantity5`. -/
theorem commit_success_effect_order_witness :
    save true record0 DataIndex.quantity (some (JSValue.num 5)) =
      [CellEvent.setEditing false,
       CellEvent.setFieldsValue DataIndex.quantity (some (JSValue.num 1)),
       CellEvent.storeUpdate rowQuantity5] := by
  have h := commit_success_effect_order record0 DataIndex.quantity
    (some (JSValue.num 5)) (JSValue.num 5) rfl
  rw [h]
  rfl

/-- C9 (counterexample): `add` is not a pure function of the old sequence
and its explicit arguments alone — the source's `handleAdd()` takes no
arguments and reads the `count` component state, so two invocations with
the identical sequence (and identical, empty, argument list) but
different counter values produce different sequences. -/
theorem add_depends_on_counter_state :
    (handleAdd initialDataSource 2).1 ≠ (handleAdd initialDataSource 3).1 := by
  decide

/-- C9 (amended): `remove` and `update` are pure functions of the
sequence and their argument, and `add` of the sequence and the counter
state: runs on equal inputs yield equal outputs (the handlers rebuild the
sequence with `filter`, spread-append and splice-on-a-copy, never writing
through the old reference). -/
theorem rowstore_ops_deterministic (s1 s2 : List DataType) (k1 k2 : JSValue)
    (r1 r2 : DataType) (c1 c2 : Int)
    (hs : s1 = s2) (hk : k1 = k2) (hr : r1 = r2) (hc : c1 = c2) :
    handleDelete s1 k1 = handleDelete s2 k2 ∧
    handleSave s1 r1 = handleSave s2 r2 ∧
    handleAdd s1 c1 = handleAdd s2 c2 := by
  subst hs hk hr hc
  exact ⟨rfl, rfl, rfl⟩

/-- C9 witness at concrete inputs. -/
theorem rowstore_ops_deterministic_witness :
    handleDelete initialDataSource (JSValue.str "0") =
      handleDelete initialDataSource (JSValue.str "0") ∧
    handleSave initialDataSource rowQuantity5 =
      handleSave initialDataSource rowQuantity5 ∧
    handleAdd initialDataSource 2 = handleAdd initialDataSource 2 :=
  rowstore_ops_deterministic _ _ _ _ _ _ _ _ rfl rfl rfl rfl

/-- C10: `remove` deletes every record whose key strictly equals the
given key, keeps all others unchanged in their relative order (the result
is a subsequence), is the identity when no key matches, and is
idempotent. -/
theorem remove_filters_matching_keys (s : List DataType) (k : JSValue) :
    (∀ r ∈ handleDelete s k, r.key ≠ k) ∧
    (handleDelete s k).Sublist s ∧
    (∀ r ∈ s, r.key ≠ k → r ∈ handleDelete s k) ∧
    ((∀ r ∈ s, r.key ≠ k) → handleDelete s k = s) ∧
    handleDelete (handleDelete s k) k = handleDelete s k := by
  refine ⟨?_, ?_, ?_, ?_, ?_⟩
  · intro r hr
    have := (List.mem_filter.mp hr).2
    simpa using this
  · exact List.filter_sublist s
  · intro r hr hk
    exact List.mem_filter.mpr ⟨hr, by simpa using hk⟩
  · intro h
    exact List.filter_eq_self.mpr (fun a ha => by simpa using h a ha)
  · rw [handleDelete, handleDelete, List.filter_filter]
    congr 1
    funext a
    exact Bool.and_self _

/-- C10 witness: removing the absent key `'9'` from the initial sequence
is the identity, and removing it twice equals removing it once. -/
theorem remove_filters_matching_keys_witness :
    handleDelete initialDataSource (JSValue.str "9") = initialDataSource ∧
    handleDelete (handleDelete initialDataSource (JSValue.str "9"))
      (JSValue.str "9") = handleDelete initialDataSource (JSValue.str "9") :=
  ⟨(remove_filters_matching_keys initialDataSource (JSValue.str "9")).2.2.2.1
      (by decide),
   (remove_filters_matching_keys initialDataSource (JSValue.str "9")).2.2.2.2⟩

/-- C5 (counterexample): `add` does not preserve key uniqueness for every
sequence and counter: on a one-record sequence whose key is already the
number `2`, invoking `add` with counter `2` produces two records with the
same key. -/
theorem add_can_duplicate_keys_counterexample :
    (([dupRecord] : List DataType).map DataType.key).Nodup ∧
    ¬ (((handleAdd [dupRecord] 2).1.map DataType.key).Nodup) := by decide

/-- C5 (amended): on a sequence with pairwise distinct keys, `remove` and
`update` always preserve distinctness, and `add` preserves it provided
the numeric key built from the counter does not already occur in the
sequence (which holds in every state reachable from the initial one,
whose keys are the strings `'0'`, `'1'` and the numbers from 2 up). -/
theorem mutations_preserve_key_nodup (s : List DataType) (k : JSValue)
    (row : DataType) (c : Int)
    (hnd : (s.map DataType.key).Nodup) :
    ((handleDelete s k).map DataType.key).Nodup ∧
    ((handleSave s row).map DataType.key).Nodup ∧
    (JSValue.num c ∉ s.map DataType.key →
      (((handleAdd s c).1).map DataType.key).Nodup) := by
  refine ⟨?_, ?_, ?_⟩
  · exact hnd.sublist (List.Sublist.map _ (List.filter_sublist s))
  · cases hf : findIdxO (fun item => decide (row.key = item.key)) s with
    | some i =>
        rw [update_found_char hf]
        obtain ⟨x, hx, hpx⟩ := findIdxO_get hf
        have hkey : row.key = x.key := of_decide_eq_true hpx
        have hmk : (spreadMerge s[i]? row).key = x.key := by
          rw [hx]
          simp [spreadMerge, hkey]
        have hgm : (s.map DataType.key)[i]? = some x.key := by
          rw [List.getElem?_map, hx]
          rfl
        rw [List.map_set, hmk, set_get_self hgm]
        exact hnd
    | none =>
        rw [update_none_char hf]
        rw [List.map_append, List.nodup_append]
        refine ⟨hnd.sublist (List.Sublist.map _ (List.dropLast_sublist s)),
          List.nodup_singleton _, ?_⟩
        simp only [List.map_cons, List.map_nil]
        rw [List.disjoint_singleton]
        intro hmem
        obtain ⟨x, hx, hkx⟩ := List.mem_map.mp hmem
        have hxs : x ∈ s := (List.dropLast_sublist s).subset hx
        have hfalse := findIdxO_eq_none_iff.mp hf x hxs
        simp at hfalse
        exact hfalse hkx.symm
  · intro hnotin
    simp only [handleAdd]
    rw [List.map_append, List.nodup_append]
    refine ⟨hnd, ?_, ?_⟩
    · simp
    · simp only [List.map_cons, List.map_nil]
      rw [List.disjoint_singleton]
      exact hnotin

/-- C5 witness: from the initial sequence, each operation preserves the
distinct keys `['0', '1']`. -/
theorem mutations_preserve_key_nodup_witness :
    ((handleDelete initialDataSource (JSValue.str "0")).map DataType.key).Nodup ∧
    ((handleSave initialDataSource rowQuantity5).map DataType.key).Nodup ∧
    (((handleAdd initialDataSource 2).1).map DataType.key).Nodup := by
  have h := mutations_preserve_key_nodup initialDataSource (JSValue.str "0")
    rowQuantity5 2 (by decide)
  exact ⟨h.1, h.2.1, h.2.2 (by decide)⟩

/-- C7: when exactly one record of the sequence has the incoming row's
key (say at position `i`), `update` keeps the length, replaces position
`i` with the spread merge of the old record and the row (old fields
survive where the row has none), and leaves every other position
untouched. -/
theorem update_unique_match_replaces_in_place (s : List DataType)
    (row : DataType) (i : Nat) (hi : i < s.length)
    (hmatch : ∀ j : Fin s.length, (s.get j).key = row.key ↔ (j : Nat) = i) :
    (handleSave s row).length = s.length ∧
    handleSave s row = s.set i (spreadMerge s[i]? row) ∧
    (∀ j : Nat, j ≠ i → (handleSave s row)[j]? = s[j]?) := by
  have hfind : findIdxO (fun item => decide (row.key = item.key)) s = some i := by
    apply findIdxO_intro (x := s.get ⟨i, hi⟩)
    · simp [List.getElem?_eq_getElem hi]
    · have hk := (hmatch ⟨i, hi⟩).mpr rfl
      simp only [decide_eq_true_eq]
      exact hk.symm
    · intro j y hj hy
      have hjlen : j < s.length := by
        by_contra hc
        rw [List.getElem?_eq_none (by omega)] at hy
        exact Option.noConfusion hy
      have hyy : y = s.get ⟨j, hjlen⟩ := by
        have hg : s[j]? = some s[j] := List.getElem?_eq_getElem hjlen
        rw [hg] at hy
        exact (Option.some.inj hy).symm
      subst hyy
      have hne : (j : Nat) ≠ i := by omega
      have hnk : ¬ (s.get ⟨j, hjlen⟩).key = row.key :=
        fun hkk => hne ((hmatch ⟨j, hjlen⟩).mp hkk)
      exact decide_eq_false (fun hkk => hnk hkk.symm)
  have hchar := update_found_char hfind
  refine ⟨?_, hchar, ?_⟩
  · rw [hchar, List.length_set]
  · intro j hj
    rw [hchar, List.getElem?_set_ne (Ne.symm hj)]

/-- C7 witness (Scenario B): committing quantity 5 for the record with
key `'0'` replaces it in place and leaves the record with key `'1'`
untouched. -/
theorem update_unique_match_replaces_in_place_witness :
    handleSave initialDataSource rowQuantity5 = [rowQuantity5, record1] ∧
    (handleSave initialDataSource rowQuantity5)[1]? = some record1 := by
  have h := update_unique_match_replaces_in_place initialDataSource rowQuantity5 0
    (by decide) (by decide)
  constructor
  · rw [h.2.1]
    decide
  · rw [h.2.2 1 (by decide)]
    decide

/-- C8: `update` applied twice with the same fully specified record (all
`Record` fields present) yields the same sequence as applying it once —
this holds on the found path (the second call finds the same position and
the merge of a full row over itself is itself) and even on the not-found
path (the first call put the row at the last position; the second call
finds it there and rewrites it unchanged). -/
theorem update_idempotent_full_record (s : List DataType) (row : DataType)
    (hfull : row.isFull = true) :
    handleSave (handleSave s row) row = handleSave s row := by
  have hpkey : (fun item => decide (row.key = item.key)) row = true := by simp
  cases hf : findIdxO (fun item => decide (row.key = item.key)) s with
  | some i =>
      have h1 : handleSave s row = s.set i (spreadMerge s[i]? row) :=
        update_found_char hf
      rw [spreadMerge_full _ _ hfull] at h1
      have hf2 : findIdxO (fun item => decide (row.key = item.key))
          (s.set i row) = some i := findIdxO_set hf hpkey
      have h2 := update_found_char hf2
      rw [h1, h2, spreadMerge_full _ _ hfull, List.set_set]
  | none =>
      have h1 : handleSave s row = s.dropLast ++ [row] := update_none_char hf
      have hnomatch := findIdxO_eq_none_iff.mp hf
      have hdl : ∀ x ∈ s.dropLast,
          (fun item => decide (row.key = item.key)) x = false :=
        fun x hx => hnomatch x ((List.dropLast_sublist s).subset hx)
      have hf2 : findIdxO (fun item => decide (row.key = item.key))
          (s.dropLast ++ [row]) = some s.dropLast.length :=
        findIdxO_append_singleton hdl hpkey
      have h2 := update_found_char hf2
      rw [h1, h2, spreadMerge_full _ _ hfull]
      apply set_get_self
      simp

/-- C8 witness: `row9` is fully specified and its key is absent from the
initial sequence; updating twice equals updating once. -/
theorem update_idempotent_full_record_witness :
    handleSave (handleSave initialDataSource row9) row9 =
      handleSave initialDataSource row9 :=
  update_idempotent_full_record initialDataSource row9 (by decide)
